import Mathlib

/-!
Verification development for the RAG-Orchestrator pipeline.

Shallow embedding of the core pipeline code:
* `vector_db.py` (`QdrantStorage.__init__`, `QdrantStorage.upsert`,
  `QdrantStorage.search`),
* `main.py` (the ingest workflow `rag_ingest_pdf` with its `_load` and
  `_upsert` steps, and the query workflow `rag_query_pdf_ai`),
* `evaluate_rag.py` (`run_rag_query` and the evaluation loop that pairs
  results with ground truths).

External services (the embedding provider, the chat-completion model, the
uuid5 hash and the qdrant backend's scoring) are modelled as explicit
function parameters; the qdrant backend's documented point semantics
(replace-by-id upsert, top-k retrieval sorted by decreasing score) are
modelled as state-passing functions over a list of points.
-/

deriving instance DecidableEq for Except

namespace RAG

/-- Python's `str.strip()`: remove leading and trailing whitespace. Defined
structurally over the character list so that it evaluates by `decide`. -/
def pyStrip (s : String) : String :=
  ⟨((s.data.dropWhile Char.isWhitespace).reverse.dropWhile Char.isWhitespace).reverse⟩

/-- A point payload as stored in qdrant: a python dict that may or may not
carry the `text` and `source` keys. `none` models an absent key. -/
structure Payload where
  text? : Option String
  source? : Option String
deriving DecidableEq

/-- A stored point: `PointStruct(id=..., vector=..., payload=...)`.
The payload is optional because `search` defends against a missing payload
(`getattr(result, 'payload', None) or {}`). -/
structure Point where
  id : String
  vector : List ℚ
  payload : Option Payload
deriving DecidableEq

/-- `payload.get('text', '')` after `getattr(result, 'payload', None) or {}`. -/
def getText (p? : Option Payload) : String :=
  ((p?.getD ⟨none, none⟩).text?).getD ""

/-- `payload.get('source', '')` after `getattr(result, 'payload', None) or {}`. -/
def getSource (p? : Option Payload) : String :=
  ((p?.getD ⟨none, none⟩).source?).getD ""

/-! ### Collection creation (`QdrantStorage.__init__`, vector_db.py lines 5-23) -/

/-- Similarity metric of a collection (`Distance.COSINE` in the source). -/
inductive Metric where
  | cosine
  | euclid
deriving DecidableEq

/-- Configuration of a qdrant collection (`VectorParams(size=dim, distance=...)`). -/
structure CollectionConfig where
  dim : Nat
  metric : Metric
deriving DecidableEq

/-- `client.collection_exists(name)`: the backend's registry of collections. -/
def collection_exists (cols : List (String × CollectionConfig)) (name : String) : Bool :=
  cols.any (fun c => c.1 == name)

/-- Shallow embedding of `QdrantStorage.__init__` (vector_db.py lines 10-23).
`createErr` models the outcome of the external `client.create_collection`
call: `none` means it succeeded, `some e` means it raised exception `e`.
The python code: if the collection exists, it does nothing at all; otherwise
it tries to create it with `VectorParams(size=dim, distance=Distance.COSINE)`;
on a creation exception it probes `client.get_collection` and re-raises when
that also fails (i.e. the collection is still absent). -/
def storageInit (cols : List (String × CollectionConfig)) (collection : String)
    (dim : Nat) (createErr : Option String) :
    Except String (List (String × CollectionConfig)) :=
  if collection_exists cols collection then
    Except.ok cols
  else
    match createErr with
    | none => Except.ok (cols ++ [(collection, ⟨dim, Metric.cosine⟩)])
    | some e =>
        if collection_exists cols collection then Except.ok cols
        else Except.error e

/-! ### Point store semantics (the qdrant backend's documented upsert contract:
a written point whose id matches an existing point replaces it wholesale) -/

/-- Write one point into the store: replace every stored point with the same
id, or append when the id is new. This is the single-point upsert semantics
of the external backend that `client.upsert` relies on. -/
def upsertPoint (pts : List Point) (p : Point) : List Point :=
  if pts.any (fun q => q.id == p.id) then
    pts.map (fun q => if q.id == p.id then p else q)
  else
    pts ++ [p]

/-- Write a batch of points in order (`client.upsert(collection, points=...)`). -/
def upsertPoints (pts : List Point) (batch : List Point) : List Point :=
  batch.foldl upsertPoint pts

/-- Retrieve a stored point by id (used to state the replacement contract). -/
def lookupPoint (pts : List Point) (id : String) : Option Point :=
  pts.find? (fun q => q.id == id)

/-! ### `QdrantStorage.upsert` (vector_db.py lines 25-30) -/

/-- The batch built by `QdrantStorage.upsert`:
`[PointStruct(id=ids[i], vector=vectors[i], payload=payloads[i]) for i in range(len(ids))]`. -/
def mkPoints (ids : List String) (vectors : List (List ℚ)) (payloads : List Payload) :
    List Point :=
  (List.range ids.length).map
    (fun i => ⟨ids.getD i "", vectors.getD i [], some (payloads.getD i ⟨none, none⟩)⟩)

/-- Shallow embedding of `QdrantStorage.upsert`: build the point batch and
hand it to the backend. -/
def storage_upsert (pts : List Point) (ids : List String) (vectors : List (List ℚ))
    (payloads : List Payload) : List Point :=
  upsertPoints pts (mkPoints ids vectors payloads)

/-! ### `QdrantStorage.search` (vector_db.py lines 32-48) -/

/-- Model of the external `client.query_points(..., limit=top_k)`: the backend
scores every stored point against the query vector under the collection's
fixed metric (the `score` parameter), sorts by decreasing score, and returns
at most `limit` points. -/
def query_points (score : List ℚ → List ℚ → ℚ) (pts : List Point) (q : List ℚ)
    (limit : Nat) : List Point :=
  (pts.mergeSort (fun a b => decide (score q b.vector ≤ score q a.vector))).take limit

/-- `sources.add(source)` followed by `list(sources)`: a python set modelled
as a duplicate-free list in insertion order. -/
def addSource (s : List String) (x : String) : List String :=
  if x ∈ s then s else s ++ [x]

/-- The result-collection loop of `QdrantStorage.search`: for each returned
point, read `text` and `source` from the payload with `''` defaults; when
`text` is non-empty append it to the contexts and add the source to the
source set, otherwise skip the point entirely. -/
def collectGo : List Point → List String → List String → List String × List String
  | [], contexts, sources => (contexts, sources)
  | r :: rest, contexts, sources =>
      let text := getText r.payload
      let source := getSource r.payload
      if text ≠ "" then collectGo rest (contexts ++ [text]) (addSource sources source)
      else collectGo rest contexts sources

/-- `search` result dict: `{"contexts": contexts, "sources": list(sources)}`. -/
structure SearchResult where
  contexts : List String
  sources : List String
deriving DecidableEq

/-- Shallow embedding of `QdrantStorage.search`. -/
def search (score : List ℚ → List ℚ → ℚ) (pts : List Point) (q : List ℚ)
    (top_k : Nat) : SearchResult :=
  let results := query_points score pts q top_k
  let cs := collectGo results [] []
  ⟨cs.1, cs.2⟩

/-- The returned points that survive the non-empty-text filter of the search
loop (specification-side characterisation, proven to describe `search`). -/
def searchHits (score : List ℚ → List ℚ → ℚ) (pts : List Point) (q : List ℚ)
    (top_k : Nat) : List Point :=
  (query_points score pts q top_k).filter (fun r => getText r.payload != "")

/-! ### Ingest workflow (`rag_ingest_pdf`, main.py lines 23-46) -/

/-- The event data for `rag/ingest-pdf`: `pdf_file_path` is required,
`source_id` may be absent (`ctx.event.data.get("source_id", file_path)`). -/
structure IngestEventData where
  pdf_file_path : String
  source_id : Option String
deriving DecidableEq

/-- Result of the `_load` step. -/
structure RAGChunkAndSrc where
  chunk : List String
  source_id : String
deriving DecidableEq

/-- Shallow embedding of the `_load` step (main.py lines 29-33): the external
PDF chunker is the parameter `load_and_chunk_pdf`; the source identifier
defaults to the file path string when the event omits `source_id`. -/
def load_step (load_and_chunk_pdf : String → List String) (data : IngestEventData) :
    RAGChunkAndSrc :=
  let file_path := data.pdf_file_path
  let source_id := data.source_id.getD file_path
  ⟨load_and_chunk_pdf file_path, source_id⟩

/-- The point identifiers computed by the `_upsert` step:
`[str(uuid.uuid5(uuid.NAMESPACE_URL, name=f"{source_id}:{i}")) for i in range(len(chunks))]`.
`uuid5` is the external hash with the URL namespace fixed, a pure function
of the name string. -/
def pointIds (uuid5 : String → String) (source_id : String) (n : Nat) : List String :=
  (List.range n).map (fun i => uuid5 (source_id ++ ":" ++ toString i))

/-- The payloads computed by the `_upsert` step:
`[{"source": source_id, "text": chunks[i]} for i in range(len(chunks))]`. -/
def ingestPayloads (chunks : List String) (source_id : String) : List Payload :=
  (List.range chunks.length).map (fun i => ⟨some (chunks.getD i ""), some source_id⟩)

/-- Shallow embedding of the `_upsert` step (main.py lines 35-42): embed all
chunks, derive deterministic ids and payloads, upsert, return the new store
and the ingested count (`RAGUpsertResult(ingested=len(ids))`). -/
def upsert_step (uuid5 : String → String) (embed_texts : List String → List (List ℚ))
    (pts : List Point) (cas : RAGChunkAndSrc) : List Point × Nat :=
  let chunks := cas.chunk
  let source_id := cas.source_id
  let vectors := embed_texts chunks
  let ids := pointIds uuid5 source_id chunks.length
  let payloads := ingestPayloads chunks source_id
  (storage_upsert pts ids vectors payloads, ids.length)

/-- Shallow embedding of the whole ingest workflow `rag_ingest_pdf`. -/
def rag_ingest_pdf (uuid5 : String → String) (embed_texts : List String → List (List ℚ))
    (load_and_chunk_pdf : String → List String) (pts : List Point)
    (data : IngestEventData) : List Point × Nat :=
  upsert_step uuid5 embed_texts pts (load_step load_and_chunk_pdf data)

/-! ### Query workflow (`rag_query_pdf_ai`, main.py lines 48-93) -/

/-- The system message used by both the query workflow and the harness. -/
def systemPrompt : String :=
  "You are a helpful assistant that provides answers based on provided context."

/-- `"\n\n".join(f"- {ctx}" for ctx in contexts)`. -/
def context_block (contexts : List String) : String :=
  String.intercalate "\n\n" (contexts.map (fun c => "- " ++ c))

/-- The user message built by both main.py (lines 64-70) and
evaluate_rag.py (lines 25-31). -/
def user_content (contexts : List String) (question : String) : String :=
  "Use the following context to answer the question:\n\n" ++
  "Context:\n" ++ context_block contexts ++ "\n\n" ++
  "Question: " ++ question ++ "\n" ++
  "Answer the question based on the context provided."

/-- The output dict of the query workflow:
`{"answer": ..., "sources": ..., "num_contexts": ...}`. -/
structure RAGQueryOutput where
  answer : String
  sources : List String
  num_contexts : Nat
deriving DecidableEq

/-- Shallow embedding of `rag_query_pdf_ai` (main.py lines 52-93). The
external chat model is the parameter `model` (system message, user message →
generated text); `openai_api_key` models `os.getenv("OPENAI_API_KEY")`
(`none` when unset); a falsy key raises `ValueError`. The answer is
`res["choices"][0]["message"]["content"].strip()`, modelled with `pyStrip`. -/
def rag_query_pdf_ai (score : List ℚ → List ℚ → ℚ)
    (embed_texts : List String → List (List ℚ)) (model : String → String → String)
    (openai_api_key : Option String) (pts : List Point) (question : String)
    (top_k_in : Option Nat) : Except String RAGQueryOutput :=
  let top_k := top_k_in.getD 5
  let query_vector := (embed_texts [question]).getD 0 []
  let search_result := search score pts query_vector top_k
  let uc := user_content search_result.contexts question
  if openai_api_key.getD "" = "" then
    Except.error "OPENAI_API_KEY environment variable is not set"
  else
    let answer_text := pyStrip (model systemPrompt uc)
    Except.ok ⟨answer_text, search_result.sources, search_result.contexts.length⟩

/-! ### Evaluation harness (`evaluate_rag.py`) -/

/-- The dict returned by `run_rag_query` (evaluate_rag.py lines 44-49). -/
structure EvalQueryResult where
  question : String
  answer : String
  contexts : List String
  sources : List String
deriving DecidableEq

/-- Shallow embedding of `run_rag_query` (evaluate_rag.py lines 17-49).
Note: the answer is `response.choices[0].message.content`, stored with no
trimming. -/
def run_rag_query (score : List ℚ → List ℚ → ℚ)
    (embed_texts : List String → List (List ℚ)) (model : String → String → String)
    (pts : List Point) (question : String) (top_k : Nat) : EvalQueryResult :=
  let query_vector := (embed_texts [question]).getD 0 []
  let search_results := search score pts query_vector top_k
  let contexts := search_results.contexts
  let uc := user_content contexts question
  let answer := model systemPrompt uc
  ⟨question, answer, contexts, search_results.sources⟩

/-- The harness loop over `test_questions` (evaluate_rag.py lines 65-73):
question `i` either yields a result (appended to `results`) or raises
(printed and skipped). `outcome i` is the run's fate for question index `i`. -/
def evalResults (outcome : Nat → Option EvalQueryResult) (n : Nat) :
    List EvalQueryResult :=
  (List.range n).filterMap outcome

/-- The positional pairing the harness feeds to the scorer:
`"ground_truth": ground_truths[:len(results)]` zipped with `results` by
position inside `Dataset.from_dict` (evaluate_rag.py lines 80-95). -/
def evalDataset (results : List EvalQueryResult) (ground_truths : List String) :
    List (EvalQueryResult × String) :=
  results.zip (ground_truths.take results.length)

/-! ### Helper lemmas about the search loop -/

theorem mem_addSource (s : List String) (y x : String) :
    x ∈ addSource s y ↔ x ∈ s ∨ x = y := by
  unfold addSource
  split
  · constructor
    · intro h; exact Or.inl h
    · rintro (h | rfl)
      · exact h
      · assumption
  · simp [List.mem_append]

theorem nodup_addSource (s : List String) (y : String) (h : s.Nodup) :
    (addSource s y).Nodup := by
  unfold addSource
  split
  · exact h
  · next hy => simp [List.nodup_append, h, hy, List.disjoint_singleton]

theorem collectGo_contexts (rs : List Point) (c s : List String) :
    (collectGo rs c s).1
      = c ++ (rs.filter (fun r => getText r.payload != "")).map
          (fun r => getText r.payload) := by
  induction rs generalizing c s with
  | nil => simp [collectGo]
  | cons r rest ih =>
      by_cases hr : getText r.payload ≠ ""
      · simp [collectGo, hr, ih, List.filter_cons, bne_iff_ne]
      · simp only [ne_eq, not_not] at hr
        simp [collectGo, hr, ih, List.filter_cons]

theorem collectGo_sources (rs : List Point) (c s : List String) :
    (collectGo rs c s).2
      = ((rs.filter (fun r => getText r.payload != "")).map
          (fun r => getSource r.payload)).foldl addSource s := by
  induction rs generalizing c s with
  | nil => simp [collectGo]
  | cons r rest ih =>
      by_cases hr : getText r.payload ≠ ""
      · simp [collectGo, hr, ih, List.filter_cons, bne_iff_ne]
      · simp only [ne_eq, not_not] at hr
        simp [collectGo, hr, ih, List.filter_cons]

theorem mem_foldl_addSource (l : List String) (s : List String) (x : String) :
    x ∈ l.foldl addSource s ↔ x ∈ s ∨ x ∈ l := by
  induction l generalizing s with
  | nil => simp
  | cons y l ih =>
      simp only [List.foldl_cons, ih, mem_addSource, List.mem_cons]
      tauto

theorem nodup_foldl_addSource (l : List String) (s : List String) (h : s.Nodup) :
    (l.foldl addSource s).Nodup := by
  induction l generalizing s with
  | nil => exact h
  | cons y l ih => exact ih _ (nodup_addSource _ _ h)

theorem search_contexts_eq (score : List ℚ → List ℚ → ℚ) (pts : List Point)
    (q : List ℚ) (k : Nat) :
    (search score pts q k).contexts
      = (searchHits score pts q k).map (fun r => getText r.payload) := by
  simp [search, searchHits, collectGo_contexts]

theorem search_sources_eq (score : List ℚ → List ℚ → ℚ) (pts : List Point)
    (q : List ℚ) (k : Nat) :
    (search score pts q k).sources
      = ((searchHits score pts q k).map (fun r => getSource r.payload)).foldl
          addSource [] := by
  simp [search, searchHits, collectGo_sources]

theorem searchHits_sublist (score : List ℚ → List ℚ → ℚ) (pts : List Point)
    (q : List ℚ) (k : Nat) :
    (searchHits score pts q k).Sublist
      (pts.mergeSort (fun a b => decide (score q b.vector ≤ score q a.vector))) := by
  exact ((List.filter_sublist _).trans (List.take_sublist _ _))

/-! ### Claim theorems about `QdrantStorage.search` -/

/-- Claim C5: for every query vector, searching an empty collection returns a
result with an empty context list and an empty source list (and the embedded
`search` is a total function, so no error is raised). -/
theorem search_empty_collection (score : List ℚ → List ℚ → ℚ) (q : List ℚ)
    (k : Nat) :
    search score [] q k = ⟨[], []⟩ := by
  simp [search, query_points, List.mergeSort_nil, collectGo]

/-- Claim C4: `search(v, k)` returns at most `k` contexts and at most as many
contexts as there are stored points, and the returned contexts are the texts
of the surviving hits, which are ordered by decreasing similarity score under
the collection's fixed metric. -/
theorem search_topk_bound_and_order (score : List ℚ → List ℚ → ℚ)
    (pts : List Point) (q : List ℚ) (k : Nat) :
    (search score pts q k).contexts.length ≤ k ∧
    (search score pts q k).contexts.length ≤ pts.length ∧
    (search score pts q k).contexts
      = (searchHits score pts q k).map (fun r => getText r.payload) ∧
    List.Sorted (fun a b => score q b.vector ≤ score q a.vector)
      (searchHits score pts q k) := by
  have hc := search_contexts_eq score pts q k
  have hlen : (search score pts q k).contexts.length
      = (searchHits score pts q k).length := by
    rw [hc, List.length_map]
  have hhits : (searchHits score pts q k).length
      ≤ (query_points score pts q k).length :=
    List.length_filter_le _ _
  have htake : (query_points score pts q k).length
      = min k (pts.mergeSort (fun a b =>
          decide (score q b.vector ≤ score q a.vector))).length := by
    simp [query_points, List.length_take]
  refine ⟨?_, ?_, hc, ?_⟩
  · rw [hlen]
    refine hhits.trans ?_
    rw [htake]
    exact min_le_left _ _
  · rw [hlen]
    refine hhits.trans ?_
    rw [htake, List.length_mergeSort]
    exact min_le_right _ _
  · have htrans : ∀ a b c : Point,
        decide (score q b.vector ≤ score q a.vector) = true →
        decide (score q c.vector ≤ score q b.vector) = true →
        decide (score q c.vector ≤ score q a.vector) = true := by
      intro a b c hab hbc
      rw [decide_eq_true_iff] at *
      exact le_trans hbc hab
    have htotal : ∀ a b : Point,
        (decide (score q b.vector ≤ score q a.vector)
          || decide (score q a.vector ≤ score q b.vector)) = true := by
      intro a b
      simp [le_total]
    have hsorted := @List.sorted_mergeSort Point
      (fun a b : Point => decide (score q b.vector ≤ score q a.vector))
      htrans htotal pts
    have hsub := List.Pairwise.sublist (searchHits_sublist score pts q k) hsorted
    exact hsub.imp (fun h => of_decide_eq_true h)

/-- Claim C8: a returned point with a missing or empty `text` payload field is
dropped entirely — the contexts are exactly the texts of the surviving hits,
and the sources list is duplicate-free and contains a source iff it is the
source of some surviving hit. -/
theorem search_drops_empty_text (score : List ℚ → List ℚ → ℚ)
    (pts : List Point) (q : List ℚ) (k : Nat) :
    (search score pts q k).contexts
      = (searchHits score pts q k).map (fun r => getText r.payload) ∧
    (search score pts q k).sources.Nodup ∧
    ∀ s, s ∈ (search score pts q k).sources ↔
      s ∈ (searchHits score pts q k).map (fun r => getSource r.payload) := by
  refine ⟨search_contexts_eq score pts q k, ?_, ?_⟩
  · rw [search_sources_eq]
    exact nodup_foldl_addSource _ _ List.nodup_nil
  · intro s
    rw [search_sources_eq, mem_foldl_addSource]
    simp

/-! ### Helper lemmas about the point store -/

theorem any_id_iff (pts : List Point) (x : String) :
    pts.any (fun q => q.id == x) = true ↔ x ∈ pts.map Point.id := by
  rw [List.any_eq_true]
  constructor
  · rintro ⟨q, hq, hqx⟩
    rw [beq_iff_eq] at hqx
    exact hqx ▸ List.mem_map_of_mem Point.id hq
  · intro hx
    rcases List.mem_map.mp hx with ⟨q, hq, rfl⟩
    exact ⟨q, hq, by simp⟩

theorem map_id_upsertPoint_of_mem (pts : List Point) (p : Point)
    (h : p.id ∈ pts.map Point.id) :
    (upsertPoint pts p).map Point.id = pts.map Point.id := by
  rw [upsertPoint, if_pos ((any_id_iff pts p.id).mpr h)]
  rw [List.map_map]
  refine List.map_congr_left ?_
  intro q _
  by_cases hq : q.id = p.id
  · simp [Function.comp, hq]
  · simp [Function.comp, hq]

theorem length_upsertPoint_of_mem (pts : List Point) (p : Point)
    (h : p.id ∈ pts.map Point.id) :
    (upsertPoint pts p).length = pts.length := by
  rw [upsertPoint, if_pos ((any_id_iff pts p.id).mpr h)]
  exact List.length_map _ _

theorem map_id_upsertPoint_of_not_mem (pts : List Point) (p : Point)
    (h : p.id ∉ pts.map Point.id) :
    (upsertPoint pts p).map Point.id = pts.map Point.id ++ [p.id] := by
  rw [upsertPoint, if_neg (fun hc => h ((any_id_iff pts p.id).mp hc))]
  simp

theorem mem_map_id_upsertPoint (pts : List Point) (p : Point) (x : String) :
    x ∈ (upsertPoint pts p).map Point.id ↔ x ∈ pts.map Point.id ∨ x = p.id := by
  by_cases h : p.id ∈ pts.map Point.id
  · rw [map_id_upsertPoint_of_mem pts p h]
    constructor
    · exact Or.inl
    · rintro (hx | rfl)
      · exact hx
      · exact h
  · rw [map_id_upsertPoint_of_not_mem pts p h]
    simp

theorem mem_map_id_upsertPoints (batch pts : List Point) (x : String) :
    x ∈ (upsertPoints pts batch).map Point.id ↔
      x ∈ pts.map Point.id ∨ x ∈ batch.map Point.id := by
  induction batch generalizing pts with
  | nil => simp [upsertPoints]
  | cons b bs ih =>
      show x ∈ (upsertPoints (upsertPoint pts b) bs).map Point.id ↔ _
      rw [ih, mem_map_id_upsertPoint]
      simp only [List.map_cons, List.mem_cons]
      tauto

theorem length_upsertPoints_of_ids_subset (batch pts : List Point)
    (h : ∀ p ∈ batch, p.id ∈ pts.map Point.id) :
    (upsertPoints pts batch).length = pts.length := by
  induction batch generalizing pts with
  | nil => rfl
  | cons b bs ih =>
      show (upsertPoints (upsertPoint pts b) bs).length = pts.length
      have hb : b.id ∈ pts.map Point.id := h b (List.mem_cons_self b bs)
      rw [ih (upsertPoint pts b) ?_, length_upsertPoint_of_mem pts b hb]
      intro p hp
      rw [map_id_upsertPoint_of_mem pts b hb]
      exact h p (List.mem_cons_of_mem b hp)

theorem find?_replace_self (pts : List Point) (p : Point)
    (h : pts.any (fun q => q.id == p.id) = true) :
    (pts.map (fun q => if q.id == p.id then p else q)).find?
      (fun q => q.id == p.id) = some p := by
  induction pts with
  | nil => simp at h
  | cons q rest ih =>
      rw [List.map_cons]
      by_cases hq : q.id = p.id
      · have hc : (if q.id == p.id then p else q) = p := by simp [hq]
        rw [hc]
        exact List.find?_cons_of_pos _ (by simp)
      · have hc : (if q.id == p.id then p else q) = q := by simp [hq]
        rw [hc, List.find?_cons_of_neg _ (by simp [hq])]
        refine ih ?_
        rw [List.any_cons] at h
        rcases Bool.or_eq_true_iff.mp h with hh | hh
        · exact absurd (beq_iff_eq.mp hh) hq
        · exact hh

theorem find?_replace_ne (pts : List Point) (p : Point) (x : String)
    (hx : x ≠ p.id) :
    (pts.map (fun q => if q.id == p.id then p else q)).find? (fun q => q.id == x)
      = pts.find? (fun q => q.id == x) := by
  induction pts with
  | nil => rfl
  | cons q rest ih =>
      rw [List.map_cons]
      by_cases hq : q.id = p.id
      · have hc : (if q.id == p.id then p else q) = p := by simp [hq]
        have hpx : ¬ ((p.id == x) = true) := by
          simp only [beq_iff_eq]
          exact fun hcc => hx hcc.symm
        have hqx : ¬ ((q.id == x) = true) := by
          simp only [beq_iff_eq, hq]
          exact fun hcc => hx hcc.symm
        have e1 : List.find? (fun r : Point => r.id == x)
            (p :: rest.map (fun r => if r.id == p.id then p else r))
            = List.find? (fun r : Point => r.id == x)
                (rest.map (fun r => if r.id == p.id then p else r)) :=
          List.find?_cons_of_neg _ hpx
        have e2 : List.find? (fun r : Point => r.id == x) (q :: rest)
            = List.find? (fun r : Point => r.id == x) rest :=
          List.find?_cons_of_neg _ hqx
        rw [hc, e1, e2]
        exact ih
      · have hc : (if q.id == p.id then p else q) = q := by simp [hq]
        rw [hc]
        by_cases hqx : (q.id == x) = true
        · have e1 : List.find? (fun r : Point => r.id == x)
              (q :: rest.map (fun r => if r.id == p.id then p else r)) = some q :=
            List.find?_cons_of_pos _ hqx
          have e2 : List.find? (fun r : Point => r.id == x) (q :: rest) = some q :=
            List.find?_cons_of_pos _ hqx
          rw [e1, e2]
        · have e1 : List.find? (fun r : Point => r.id == x)
              (q :: rest.map (fun r => if r.id == p.id then p else r))
              = List.find? (fun r : Point => r.id == x)
                  (rest.map (fun r => if r.id == p.id then p else r)) :=
            List.find?_cons_of_neg _ hqx
          have e2 : List.find? (fun r : Point => r.id == x) (q :: rest)
              = List.find? (fun r : Point => r.id == x) rest :=
            List.find?_cons_of_neg _ hqx
          rw [e1, e2]
          exact ih

theorem lookupPoint_upsertPoint_self (pts : List Point) (p : Point) :
    lookupPoint (upsertPoint pts p) p.id = some p := by
  rw [upsertPoint]
  by_cases h : pts.any (fun q => q.id == p.id) = true
  · rw [if_pos h]
    exact find?_replace_self pts p h
  · rw [if_neg h, lookupPoint, List.find?_append]
    have hnone : pts.find? (fun q => q.id == p.id) = none := by
      rw [List.find?_eq_none]
      intro q hq hc
      exact h ((List.any_eq_true).mpr ⟨q, hq, hc⟩)
    have hone : List.find? (fun q : Point => q.id == p.id) [p] = some p :=
      List.find?_cons_of_pos _ (by simp)
    rw [hnone, hone]
    rfl

theorem lookupPoint_upsertPoint_ne (pts : List Point) (p : Point) (x : String)
    (hx : x ≠ p.id) :
    lookupPoint (upsertPoint pts p) x = lookupPoint pts x := by
  rw [upsertPoint]
  by_cases h : pts.any (fun q => q.id == p.id) = true
  · rw [if_pos h]
    exact find?_replace_ne pts p x hx
  · rw [if_neg h, lookupPoint, List.find?_append, lookupPoint]
    have hpx : ¬ ((p.id == x) = true) := by
      simp only [beq_iff_eq]
      exact fun hcc => hx hcc.symm
    have hone : List.find? (fun q : Point => q.id == x) [p] = none := by
      have e : List.find? (fun q : Point => q.id == x) (p :: ([] : List Point))
          = List.find? (fun q : Point => q.id == x) ([] : List Point) :=
        List.find?_cons_of_neg _ hpx
      rw [e]
      rfl
    rw [hone]
    cases hfind : pts.find? (fun q => q.id == x) with
    | none => rfl
    | some r => rfl

theorem lookupPoint_upsertPoints_not_mem (batch pts : List Point) (x : String)
    (h : x ∉ batch.map Point.id) :
    lookupPoint (upsertPoints pts batch) x = lookupPoint pts x := by
  induction batch generalizing pts with
  | nil => rfl
  | cons b bs ih =>
      show lookupPoint (upsertPoints (upsertPoint pts b) bs) x = _
      have hx : x ≠ b.id := by
        intro hc
        exact h (by rw [List.map_cons, hc]; exact List.mem_cons_self _ _)
      have hbs : x ∉ bs.map Point.id := by
        intro hc
        exact h (by rw [List.map_cons]; exact List.mem_cons_of_mem _ hc)
      rw [ih (upsertPoint pts b) hbs, lookupPoint_upsertPoint_ne pts b x hx]

theorem lookupPoint_upsertPoints_mem (batch pts : List Point) (p : Point)
    (hp : p ∈ batch) (hnd : (batch.map Point.id).Nodup) :
    lookupPoint (upsertPoints pts batch) p.id = some p := by
  induction batch generalizing pts with
  | nil => simp at hp
  | cons b bs ih =>
      show lookupPoint (upsertPoints (upsertPoint pts b) bs) p.id = some p
      rcases List.mem_cons.mp hp with rfl | hmem
      · have hbs : p.id ∉ bs.map Point.id := by
          simp only [List.map_cons, List.nodup_cons] at hnd
          exact hnd.1
        rw [lookupPoint_upsertPoints_not_mem bs (upsertPoint pts p) p.id hbs]
        exact lookupPoint_upsertPoint_self pts p
      · have hnd' : (bs.map Point.id).Nodup := by
          simp only [List.map_cons, List.nodup_cons] at hnd
          exact hnd.2
        exact ih (upsertPoint pts b) hmem hnd'

theorem range_map_getD {α : Type} (l : List α) (d : α) :
    (List.range l.length).map (fun i => l.getD i d) = l := by
  refine List.ext_getElem (by simp) ?_
  intro i h1 h2
  simp only [List.getElem_map, List.getElem_range]
  exact List.getD_eq_getElem l d h2

theorem mkPoints_map_id (ids : List String) (vectors : List (List ℚ))
    (payloads : List Payload) :
    (mkPoints ids vectors payloads).map Point.id = ids := by
  rw [mkPoints, List.map_map]
  have : (Point.id ∘ fun i =>
      (⟨ids.getD i "", vectors.getD i [], some (payloads.getD i ⟨none, none⟩)⟩ : Point))
      = fun i => ids.getD i "" := rfl
  rw [this]
  exact range_map_getD ids ""

theorem mkPoints_length (ids : List String) (vectors : List (List ℚ))
    (payloads : List Payload) :
    (mkPoints ids vectors payloads).length = ids.length := by
  simp [mkPoints]

/-! ### Claim theorems about ingest and upsert -/

/-- Claim C1: the point identifiers computed by the `_upsert` step are a
deterministic function of the source id and chunk index (`uuid5` of
`"{source_id}:{i}"`, encoded in `pointIds`), the reported ingested count is
the chunk count, and running the ingest upsert twice with the same
(source_id, chunks) leaves exactly as many stored points as running it once:
the second run recomputes the same ids, so every write is a replacement. -/
theorem ingest_idempotent (uuid5 : String → String)
    (embed_texts : List String → List (List ℚ)) (pts : List Point)
    (cas : RAGChunkAndSrc) :
    (upsert_step uuid5 embed_texts pts cas).2 = cas.chunk.length ∧
    ((upsert_step uuid5 embed_texts
        (upsert_step uuid5 embed_texts pts cas).1 cas).1).length
      = ((upsert_step uuid5 embed_texts pts cas).1).length := by
  constructor
  · simp [upsert_step, pointIds]
  · show (upsertPoints
        (upsertPoints pts (mkPoints (pointIds uuid5 cas.source_id cas.chunk.length)
          (embed_texts cas.chunk) (ingestPayloads cas.chunk cas.source_id)))
        (mkPoints (pointIds uuid5 cas.source_id cas.chunk.length)
          (embed_texts cas.chunk) (ingestPayloads cas.chunk cas.source_id))).length
      = _
    refine length_upsertPoints_of_ids_subset _ _ ?_
    intro p hp
    rw [mem_map_id_upsertPoints]
    exact Or.inr (List.mem_map_of_mem Point.id hp)

/-- Claim C6: `upsert(ids, vectors, payloads)` with equally long sequences
writes exactly `n = ids.length` points; the point written for position `i`
is `(ids[i], vectors[i], payloads[i])`; and after the upsert, looking up
`ids[i]` in the store yields exactly that new point — an existing point with
the same id is replaced wholesale (vector and payload both), never merged. -/
theorem upsert_positional_replace (st : List Point) (ids : List String)
    (vectors : List (List ℚ)) (payloads : List Payload) (i : Nat)
    (hv : vectors.length = ids.length) (hpay : payloads.length = ids.length)
    (hnd : ids.Nodup) (hi : i < ids.length) :
    (mkPoints ids vectors payloads).length = ids.length ∧
    (mkPoints ids vectors payloads).getD i ⟨"", [], none⟩
      = ⟨ids.getD i "", vectors.getD i [], some (payloads.getD i ⟨none, none⟩)⟩ ∧
    lookupPoint (storage_upsert st ids vectors payloads) (ids.getD i "")
      = some ⟨ids.getD i "", vectors.getD i [],
          some (payloads.getD i ⟨none, none⟩)⟩ := by
  have hlen : i < (mkPoints ids vectors payloads).length := by
    rw [mkPoints_length]
    exact hi
  have hget : (mkPoints ids vectors payloads).getD i ⟨"", [], none⟩
      = ⟨ids.getD i "", vectors.getD i [], some (payloads.getD i ⟨none, none⟩)⟩ := by
    rw [List.getD_eq_getElem _ _ hlen]
    simp [mkPoints]
  refine ⟨mkPoints_length ids vectors payloads, hget, ?_⟩
  have hmem : (⟨ids.getD i "", vectors.getD i [],
      some (payloads.getD i ⟨none, none⟩)⟩ : Point) ∈ mkPoints ids vectors payloads := by
    rw [← hget, List.getD_eq_getElem _ _ hlen]
    exact List.getElem_mem hlen
  have hnd' : ((mkPoints ids vectors payloads).map Point.id).Nodup := by
    rw [mkPoints_map_id]
    exact hnd
  exact lookupPoint_upsertPoints_mem (mkPoints ids vectors payloads) st _ hmem hnd'

/-- Witness for claim C6 at a concrete input: the store already holds a point
with id `"a"` (vector `[9]`, payload text `"old"`); upserting
`ids = ["a", "b"]` with new vectors and payloads fully replaces it. -/
theorem upsert_positional_replace_witness :
    (mkPoints ["a", "b"] [[(1 : ℚ)], [2]]
        [⟨some "t1", some "s1"⟩, ⟨some "t2", some "s2"⟩]).length = 2 ∧
    (mkPoints ["a", "b"] [[(1 : ℚ)], [2]]
        [⟨some "t1", some "s1"⟩, ⟨some "t2", some "s2"⟩]).getD 0 ⟨"", [], none⟩
      = ⟨"a", [1], some ⟨some "t1", some "s1"⟩⟩ ∧
    lookupPoint (storage_upsert [⟨"a", [9], some ⟨some "old", some "oldsrc"⟩⟩]
        ["a", "b"] [[1], [2]] [⟨some "t1", some "s1"⟩, ⟨some "t2", some "s2"⟩]) "a"
      = some ⟨"a", [1], some ⟨some "t1", some "s1"⟩⟩ :=
  upsert_positional_replace [⟨"a", [9], some ⟨some "old", some "oldsrc"⟩⟩]
    ["a", "b"] [[1], [2]] [⟨some "t1", some "s1"⟩, ⟨some "t2", some "s2"⟩] 0
    (by decide) (by decide) (by decide) (by decide)

/-! ### Claim theorems about collection creation -/

/-- Counterexample to claim C2: when the named collection already exists with
dimension 4 but the adapter is configured with dimension 3072, construction
succeeds and leaves the mismatched collection untouched — no dimension or
metric verification happens — and the adapter's upsert then indexes a vector
whose dimension (2) differs from both, with no error. -/
theorem storage_init_no_dim_check :
    storageInit [("documents", ⟨4, Metric.cosine⟩)] "documents" 3072 none
      = Except.ok [("documents", ⟨4, Metric.cosine⟩)] ∧
    storage_upsert [] ["a"] [[0, 0]] [⟨some "t", some "s"⟩]
      = [⟨"a", [0, 0], some ⟨some "t", some "s"⟩⟩] := by
  constructor
  · rfl
  · decide

/-- Claim C2 as amended: when the collection already exists the constructor
leaves it in place with no compatibility verification at all; when it is
absent and creation succeeds, the collection is created with the configured
dimension and the cosine metric; when it is absent and creation fails, the
error is surfaced. -/
theorem storage_init_cases (cols : List (String × CollectionConfig))
    (name : String) (dim : Nat) (createErr : Option String) :
    (collection_exists cols name = true →
        storageInit cols name dim createErr = Except.ok cols) ∧
    (collection_exists cols name = false → createErr = none →
        storageInit cols name dim createErr
          = Except.ok (cols ++ [(name, ⟨dim, Metric.cosine⟩)])) ∧
    (∀ e, collection_exists cols name = false → createErr = some e →
        storageInit cols name dim createErr = Except.error e) := by
  refine ⟨?_, ?_, ?_⟩
  · intro h
    simp [storageInit, h]
  · intro h he
    subst he
    simp [storageInit, h]
  · intro e h he
    subst he
    simp [storageInit, h]

/-- Witness for the amended claim C2 at a concrete input: creating the absent
collection `"documents"` with dimension 3072 succeeds with the cosine metric. -/
theorem storage_init_cases_witness :
    storageInit [] "documents" 3072 none
      = Except.ok [("documents", ⟨3072, Metric.cosine⟩)] :=
  (storage_init_cases [] "documents" 3072 none).2.1 (by decide) rfl

/-! ### Claim theorems about the query workflow -/

theorem search_nil_store (score : List ℚ → List ℚ → ℚ) (q : List ℚ) (k : Nat) :
    search score [] q k = ⟨[], []⟩ := by
  simp [search, query_points, List.mergeSort_nil, collectGo]

theorem search_sources_nil_of_contexts_nil (score : List ℚ → List ℚ → ℚ)
    (pts : List Point) (q : List ℚ) (k : Nat)
    (h : (search score pts q k).contexts = []) :
    (search score pts q k).sources = [] := by
  have hc := search_contexts_eq score pts q k
  rw [h] at hc
  have hhits : searchHits score pts q k = [] := List.map_eq_nil_iff.mp hc.symm
  rw [search_sources_eq, hhits]
  rfl

/-- Claim C3: when retrieval returns zero results, the query workflow does not
fail: the model is still invoked on an empty context block, and the output has
`num_contexts = 0`, an empty `sources` list, and the model's (stripped)
generated answer. -/
theorem query_zero_results (score : List ℚ → List ℚ → ℚ)
    (embed_texts : List String → List (List ℚ)) (model : String → String → String)
    (key : Option String) (pts : List Point) (question : String)
    (top_k_in : Option Nat)
    (hkey : key.getD "" ≠ "")
    (hempty : (search score pts ((embed_texts [question]).getD 0 [])
        (top_k_in.getD 5)).contexts = []) :
    rag_query_pdf_ai score embed_texts model key pts question top_k_in
      = Except.ok ⟨pyStrip (model systemPrompt (user_content [] question)), [], 0⟩ := by
  have hsrc := search_sources_nil_of_contexts_nil score pts
    ((embed_texts [question]).getD 0 []) (top_k_in.getD 5) hempty
  simp only [rag_query_pdf_ai]
  rw [if_neg hkey, hempty, hsrc]
  rfl

/-! Test fixtures used only by the witness and counterexample theorems. -/

def constScore : List ℚ → List ℚ → ℚ := fun _ _ => 0

def constEmbed : List String → List (List ℚ) := fun ts => ts.map (fun _ => [0])

def constModel : String → String → String := fun _ _ => " model answer "

/-- Witness for claim C3 at a concrete input: querying an empty store with a
set API key produces `num_contexts = 0`, no sources, and a model answer. -/
theorem query_zero_results_witness :
    rag_query_pdf_ai constScore constEmbed constModel (some "key") [] "q" none
      = Except.ok
          ⟨pyStrip (constModel systemPrompt (user_content [] "q")), [], 0⟩ :=
  query_zero_results constScore constEmbed constModel (some "key") [] "q" none
    (by decide) (by rw [search_nil_store])

/-- Counterexample to claim C7: the evaluation harness stores the chat model's
generated text verbatim (`answer = response.choices[0].message.content`, no
`.strip()`), so with a model whose output carries surrounding whitespace the
harness answer differs from the trimmed generated text. -/
theorem harness_answer_not_trimmed :
    (run_rag_query constScore constEmbed constModel [] "q" 5).answer
      ≠ pyStrip (constModel systemPrompt (user_content [] "q")) := by
  have h1 : (run_rag_query constScore constEmbed constModel [] "q" 5).answer
      = constModel systemPrompt (user_content [] "q") := by
    simp [run_rag_query, search_nil_store]
  rw [h1]
  decide

/-- Claim C7 as amended: the event-triggered query workflow returns the model
text with surrounding whitespace stripped, but the evaluation harness's
`run_rag_query` returns the model text verbatim, with no modification. -/
theorem answer_trim_behavior (score : List ℚ → List ℚ → ℚ)
    (embed_texts : List String → List (List ℚ)) (model : String → String → String)
    (key : Option String) (pts : List Point) (question : String)
    (top_k_in : Option Nat) (top_k : Nat)
    (hkey : key.getD "" ≠ "") :
    rag_query_pdf_ai score embed_texts model key pts question top_k_in
      = Except.ok
          ⟨pyStrip (model systemPrompt (user_content
              (search score pts ((embed_texts [question]).getD 0 [])
                (top_k_in.getD 5)).contexts question)),
            (search score pts ((embed_texts [question]).getD 0 [])
              (top_k_in.getD 5)).sources,
            (search score pts ((embed_texts [question]).getD 0 [])
              (top_k_in.getD 5)).contexts.length⟩ ∧
    (run_rag_query score embed_texts model pts question top_k).answer
      = model systemPrompt (user_content
          (search score pts ((embed_texts [question]).getD 0 []) top_k).contexts
          question) := by
  constructor
  · simp [rag_query_pdf_ai, hkey]
  · simp [run_rag_query]

/-- Witness for the amended claim C7 at a concrete input. -/
theorem answer_trim_behavior_witness :
    rag_query_pdf_ai constScore constEmbed constModel (some "key") [] "q" none
      = Except.ok
          ⟨pyStrip (constModel systemPrompt (user_content
              (search constScore [] ((constEmbed ["q"]).getD 0 [])
                ((none : Option Nat).getD 5)).contexts "q")),
            (search constScore [] ((constEmbed ["q"]).getD 0 [])
              ((none : Option Nat).getD 5)).sources,
            (search constScore [] ((constEmbed ["q"]).getD 0 [])
              ((none : Option Nat).getD 5)).contexts.length⟩ ∧
    (run_rag_query constScore constEmbed constModel [] "q" 5).answer
      = constModel systemPrompt (user_content
          (search constScore [] ((constEmbed ["q"]).getD 0 []) 5).contexts "q") :=
  answer_trim_behavior constScore constEmbed constModel (some "key") [] "q" none 5
    (by decide)

/-- Claim C10: when the ingest event data omits `source_id`, the document's
file path string becomes the source identifier: it is the `source_id` of the
loaded chunks, the `source` field of every payload, and the string hashed
(with the chunk index) into every point identifier. -/
theorem source_id_defaults_to_path (uuid5 : String → String)
    (chunker : String → List String) (data : IngestEventData)
    (h : data.source_id = none) :
    (load_step chunker data).source_id = data.pdf_file_path ∧
    pointIds uuid5 (load_step chunker data).source_id
        (load_step chunker data).chunk.length
      = pointIds uuid5 data.pdf_file_path (chunker data.pdf_file_path).length ∧
    ∀ p ∈ ingestPayloads (load_step chunker data).chunk
        (load_step chunker data).source_id,
      p.source? = some data.pdf_file_path := by
  have hsrc : (load_step chunker data).source_id = data.pdf_file_path := by
    simp [load_step, h]
  refine ⟨hsrc, ?_, ?_⟩
  · rw [hsrc]
    rfl
  · intro p hp
    rcases List.mem_map.mp hp with ⟨i, _, rfl⟩
    simpa using congrArg some hsrc

/-- Test fixture: a deterministic stand-in for the external chunker. -/
def constChunker : String → List String := fun fp => [fp ++ "-c0", fp ++ "-c1"]

/-- Test fixture: a deterministic stand-in for the external uuid5 hash. -/
def constUuid : String → String := fun s => "uuid-" ++ s

/-! ### Claim theorem about the evaluation harness pairing -/

theorem evalResults_one_failure (answerOf : Nat → EvalQueryResult) (j m : Nat) :
    evalResults (fun i => if i = j then none else some (answerOf i)) (j + 1 + m)
      = (List.range (j + m)).map (fun p => answerOf (if p < j then p else p + 1)) := by
  rw [evalResults, List.range_add, List.filterMap_append]
  have h1 : List.filterMap (fun i => if i = j then none else some (answerOf i))
      (List.range (j + 1)) = (List.range j).map answerOf := by
    rw [List.range_succ, List.filterMap_append]
    have h1a : List.filterMap (fun i => if i = j then none else some (answerOf i))
        (List.range j)
        = List.filterMap (fun i => some (answerOf i)) (List.range j) := by
      refine List.filterMap_congr ?_
      intro x hx
      rw [List.mem_range] at hx
      rw [if_neg (Nat.ne_of_lt hx)]
    have h1b : List.filterMap (fun i => some (answerOf i)) (List.range j)
        = (List.range j).map answerOf := by
      refine Eq.trans ?_ (congrFun (List.filterMap_eq_map answerOf) (List.range j))
      rfl
    have h1c : List.filterMap (fun i => if i = j then none else some (answerOf i))
        [j] = [] := by
      rw [List.filterMap_cons, if_pos rfl]
      rfl
    rw [h1a, h1b, h1c, List.append_nil]
  have h2 : List.filterMap (fun i => if i = j then none else some (answerOf i))
      ((List.range m).map (fun x => j + 1 + x))
      = (List.range m).map (fun t => answerOf (j + 1 + t)) := by
    rw [List.filterMap_map]
    have h2a : List.filterMap
        ((fun i => if i = j then none else some (answerOf i)) ∘ (fun x => j + 1 + x))
        (List.range m)
        = List.filterMap (fun t => some (answerOf (j + 1 + t))) (List.range m) := by
      refine List.filterMap_congr ?_
      intro x _
      have : j + 1 + x ≠ j := by omega
      simp only [Function.comp]
      rw [if_neg this]
    have h2b : List.filterMap (fun t => some (answerOf (j + 1 + t))) (List.range m)
        = (List.range m).map (fun t => answerOf (j + 1 + t)) := by
      refine Eq.trans ?_
        (congrFun (List.filterMap_eq_map (fun t => answerOf (j + 1 + t)))
          (List.range m))
      rfl
    rw [h2a, h2b]
  rw [h1, h2, List.range_add, List.map_append, List.map_map]
  congr 1
  · refine List.map_congr_left ?_
    intro a ha
    rw [List.mem_range] at ha
    rw [if_pos ha]
  · refine List.map_congr_left ?_
    intro t _
    have hnot : ¬ (j + t < j) := by omega
    simp only [Function.comp]
    rw [if_neg hnot]
    congr 1
    omega

/-- Claim C9: in the evaluation harness, a failing question is skipped and the
ground truths are then paired with the surviving results purely by position,
so with questions `0 .. j+m` and question `j` failing, the dataset row at
position `p ≥ j` pairs the answer of question `p+1` with the reference answer
`gts[p]` of the preceding question `p`. -/
theorem eval_ground_truth_misalignment (answerOf : Nat → EvalQueryResult)
    (gts : List String) (j m : Nat) (hlen : j + m ≤ gts.length) :
    evalDataset
        (evalResults (fun i => if i = j then none else some (answerOf i))
          (j + 1 + m)) gts
      = (List.range (j + m)).map
          (fun p => (answerOf (if p < j then p else p + 1), gts.getD p "")) := by
  rw [evalDataset, evalResults_one_failure]
  have hR : ((List.range (j + m)).map
      (fun p => answerOf (if p < j then p else p + 1))).length = j + m := by
    rw [List.length_map, List.length_range]
  refine List.ext_getElem ?_ ?_
  · rw [List.length_zip, List.length_take, hR, List.length_map, List.length_range]
    omega
  · intro p h1 h2
    have hp : p < j + m := by
      rw [List.length_map, List.length_range] at h2
      exact h2
    have hpg : p < gts.length := by omega
    have hl1 : p < ((List.range (j + m)).map
        (fun p => answerOf (if p < j then p else p + 1))).length := by
      rw [hR]
      exact hp
    have hl2 : p < (gts.take ((List.range (j + m)).map
        (fun p => answerOf (if p < j then p else p + 1))).length).length := by
      rw [List.length_take, hR]
      omega
    rw [List.getElem_zip, List.getElem_map, List.getElem_range,
      List.getElem_take, List.getElem_map, List.getElem_range,
      List.getD_eq_getElem gts "" hpg]

/-- Test fixture: a deterministic stand-in for per-question query results. -/
def constAnswerOf : Nat → EvalQueryResult := fun i => ⟨toString i, "a", [], []⟩

/-- Witness for claim C9 at a concrete input: two questions, question 0 fails,
so question 1's answer is paired with ground truth `"g0"` — the reference
answer of question 0. -/
theorem eval_ground_truth_misalignment_witness :
    evalDataset
        (evalResults (fun i => if i = 0 then none else some (constAnswerOf i)) 2)
        ["g0", "g1"]
      = (List.range 1).map
          (fun p => (constAnswerOf (if p < 0 then p else p + 1),
            (["g0", "g1"] : List String).getD p "")) :=
  eval_ground_truth_misalignment constAnswerOf ["g0", "g1"] 0 1 (by decide)

/-- Witness for claim C10 at a concrete input: an ingest event for
`"file.pdf"` with no `source_id` field. -/
theorem source_id_defaults_to_path_witness :
    (load_step constChunker ⟨"file.pdf", none⟩).source_id = "file.pdf" ∧
    pointIds constUuid (load_step constChunker ⟨"file.pdf", none⟩).source_id
        (load_step constChunker ⟨"file.pdf", none⟩).chunk.length
      = pointIds constUuid "file.pdf" (constChunker "file.pdf").length ∧
    ∀ p ∈ ingestPayloads (load_step constChunker ⟨"file.pdf", none⟩).chunk
        (load_step constChunker ⟨"file.pdf", none⟩).source_id,
      p.source? = some "file.pdf" :=
  source_id_defaults_to_path constUuid constChunker ⟨"file.pdf", none⟩ rfl

end RAG
